import Mathlib

/-!
Verification of the domain-to-IP blocking orchestrator (`DomainBlock` class).

Shallow embedding: the orchestrator's external collaborators (live DNS
resolution, the reverse-DNS observation cache, the redis mapping store, the
IP block primitive, the dnsmasq policy filter) are modelled by an `Env`
oracle fixing the outcome of every external call, the redis store is an
association list from keys to set members, and each workflow returns an
`Except Unit` result (an `error` models a rejected promise) together with a
trace of the externally visible calls it issued, in order.  The module-level
mutable `globalLock` with its recursive retry-after-delay is modelled by a
fuel-indexed chain in which the observed lock value and the store at each
retry round are supplied by the oracle (other tasks may run during a delay).
-/

namespace DomainBlockSpec

instance instDecEqExcept {ε α : Type} [DecidableEq ε] [DecidableEq α] :
    DecidableEq (Except ε α) := fun a b =>
  match a, b with
  | Except.ok x, Except.ok y =>
    if h : x = y then isTrue (by rw [h]) else isFalse (fun he => by cases he; exact h rfl)
  | Except.error x, Except.error y =>
    if h : x = y then isTrue (by rw [h]) else isFalse (fun he => by cases he; exact h rfl)
  | Except.ok _, Except.error _ => isFalse (fun he => by cases he)
  | Except.error _, Except.ok _ => isFalse (fun he => by cases he)

/-- Externally visible calls issued by the orchestrator, in program order. -/
inductive Event where
  | addFilterEntry (domain : String)
  | removeFilterEntry (domain : String)
  | emitReload
  | addReverseDns (domain : String) (addrs : List String)
  | sadd (key : String) (members : List String)
  | del (key : String)
  | blockCall (addr : String) (setName : String)
  | unblockCall (addr : String) (setName : String)
  | scheduleReinforce (domain : String)
  deriving DecidableEq, Repr

/-- Oracle fixing the outcome of every external call made during one workflow
body.  `Except.error ()` models a rejected promise; the `..Ok` booleans model
whether the corresponding store / cache-write / filter call succeeds, and
`blockFails` / `unblockFails` whether the IP block primitive rejects for a
given address. -/
structure Env where
  resolve4 : Except Unit (List String)
  resolve6 : Except Unit (List String)
  rdnsAdd4Ok : Bool
  rdnsAdd6Ok : Bool
  rdnsExact : Except Unit (List String)
  rdnsPattern : Except Unit (List String)
  saddOk : Bool
  smembersOk : Bool
  existsOk : Bool
  delOk : Bool
  dnsmasqAddOk : Bool
  dnsmasqRemoveOk : Bool
  blockFails : String → Bool
  unblockFails : String → Bool

/-- JS `promise.catch(err => [])`: a rejected list-producing call degrades to
the empty list. -/
def caughtList (r : Except Unit (List String)) : List String :=
  match r with
  | Except.ok l => l
  | Except.error _ => []

/-- JS `promise.catch(err => undefined)`: the rejection is swallowed. -/
def catchAsUndefined (_ : Except Unit Unit) : Except Unit Unit := Except.ok ()

/-- First-occurrence deduplication, matching the key order of a JS object
built by repeated `set[addr] = 1` assignments (and redis set-insertion
order). -/
def dedupKeepFirst (l : List String) : List String :=
  l.foldl (fun acc a => if acc.contains a then acc else acc ++ [a]) []

/-- Redis SADD member-list semantics: existing members keep their order, new
members are appended once each. -/
def setAdd (old l : List String) : List String :=
  old ++ dedupKeepFirst (l.filter (fun a => !(old.contains a)))

/-- The redis database restricted to set-valued keys: an association list
from key to members.  Lookups take the first matching entry. -/
structure Store where
  entries : List (String × List String)
  deriving DecidableEq, Repr

def smembersEntries (entries : List (String × List String)) (key : String) : List String :=
  match entries with
  | [] => []
  | e :: rest => if e.1 = key then e.2 else smembersEntries rest key

def Store.smembers (s : Store) (key : String) : List String :=
  smembersEntries s.entries key

def saddEntries (entries : List (String × List String)) (key : String) (l : List String) :
    List (String × List String) :=
  match entries with
  | [] => [(key, setAdd [] l)]
  | e :: rest => if e.1 = key then (key, setAdd e.2 l) :: rest else e :: saddEntries rest key l

def Store.sadd (s : Store) (key : String) (l : List String) : Store :=
  ⟨saddEntries s.entries key l⟩

def delEntries (entries : List (String × List String)) (key : String) :
    List (String × List String) :=
  match entries with
  | [] => []
  | e :: rest => if e.1 = key then delEntries rest key else e :: delEntries rest key

def Store.del (s : Store) (key : String) : Store :=
  ⟨delEntries s.entries key⟩

/-- Redis EXISTS on a set key: a set key exists exactly when it has at least
one member. -/
def Store.existsKey (s : Store) (key : String) : Bool :=
  !(s.smembers key).isEmpty

/-- The `options` argument; recognized fields per the code: `exactMatch`
(read from `options`) and `externalMapping` (present on the options object in
the spec's interface, but the code never reads it from `options`). -/
structure Options where
  exactMatch : Bool := false
  externalMapping : Option String := none
  deriving DecidableEq, Repr

/-- JS `options = options || {}`. -/
def normOptions (o : Option Options) : Options := o.getD {}

/-- The `DomainBlock` instance state.  The code consults the instance
property `this.externalMapping` (never assigned inside the class; a caller
may set it on the instance). -/
structure DomainBlock where
  externalMapping : Option String := none
  deriving DecidableEq, Repr

/-- JS truthiness of an optional string: `undefined` and `""` are falsy. -/
def isTruthy (o : Option String) : Bool :=
  match o with
  | some s => !(s = "")
  | none => false

/-- `getDomainIPMappingKey(domain, options)`: `if (this.externalMapping)
return this.externalMapping;` else a key namespaced by `options.exactMatch`. -/
def getDomainIPMappingKey (self : DomainBlock) (domain : String)
    (options : Option Options) : String :=
  if isTruthy self.externalMapping then self.externalMapping.getD ""
  else if (normOptions options).exactMatch then "ipmapping:exactdomain:" ++ domain
  else "ipmapping:domain:" ++ domain

/-- `removeDomainIPMapping`: `rclient.delAsync(key)` — not caught. -/
def removeDomainIPMapping (env : Env) (self : DomainBlock) (domain : String)
    (options : Option Options) (store : Store) : Except Unit (Store × List Event) :=
  let key := getDomainIPMappingKey self domain options
  if env.delOk then Except.ok (store.del key, [Event.del key])
  else Except.error ()

/-- `getMappedIPAddresses`: `rclient.smembersAsync(key)` — not caught. -/
def getMappedIPAddresses (env : Env) (self : DomainBlock) (domain : String)
    (options : Option Options) (store : Store) : Except Unit (List String) :=
  if env.smembersOk then
    Except.ok (store.smembers (getDomainIPMappingKey self domain options))
  else Except.error ()

/-- `Block.block(addr, "blocked_domain_set")`: may reject per address. -/
def blockPrim (env : Env) (addr : String) : Except Unit Unit :=
  if env.blockFails addr then Except.error () else Except.ok ()

/-- `Block.unblock(addr, "blocked_domain_set")`: may reject per address. -/
def unblockPrim (env : Env) (addr : String) : Except Unit Unit :=
  if env.unblockFails addr then Except.error () else Except.ok ()

/-- The per-address loop of `applyBlock`: each iteration awaits
`Block.block(addr, "blocked_domain_set").catch(err => undefined)` — the
per-address rejection is swallowed, so a swallowed rejection never aborts the
remaining iterations. -/
def applyBlockLoop (env : Env) (addrs : List String) : Except Unit (List Event) :=
  match addrs with
  | [] => Except.ok []
  | addr :: rest =>
    match catchAsUndefined (blockPrim env addr) with
    | Except.error e => Except.error e
    | Except.ok _ =>
      match applyBlockLoop env rest with
      | Except.error e => Except.error e
      | Except.ok evs => Except.ok (Event.blockCall addr "blocked_domain_set" :: evs)

/-- The per-address loop of `unapplyBlock`, calling `Block.unblock` with the
same swallowed-rejection pattern. -/
def unapplyBlockLoop (env : Env) (addrs : List String) : Except Unit (List Event) :=
  match addrs with
  | [] => Except.ok []
  | addr :: rest =>
    match catchAsUndefined (unblockPrim env addr) with
    | Except.error e => Except.error e
    | Except.ok _ =>
      match unapplyBlockLoop env rest with
      | Except.error e => Except.error e
      | Except.ok evs => Except.ok (Event.unblockCall addr "blocked_domain_set" :: evs)

/-- `applyBlock(domain, options)`: read the mapping's members (uncaught),
then issue one block call per address.  The JS `if (addresses)` guard always
passes because `smembers` resolves to an array. -/
def applyBlock (env : Env) (self : DomainBlock) (domain : String)
    (options : Option Options) (store : Store) : Except Unit (List Event) :=
  match getMappedIPAddresses env self domain options store with
  | Except.error e => Except.error e
  | Except.ok addresses => applyBlockLoop env addresses

/-- `unapplyBlock(domain, options)`: read the mapping's members (uncaught),
then issue one unblock call per address. -/
def unapplyBlock (env : Env) (self : DomainBlock) (domain : String)
    (options : Option Options) (store : Store) : Except Unit (List Event) :=
  match getMappedIPAddresses env self domain options store with
  | Except.error e => Except.error e
  | Except.ok addresses => unapplyBlockLoop env addresses

/-- `resolveDomain(domain)`: v4 and v6 lookups each degrade to `[]` on
rejection, but the two `dnsTool.addReverseDns` cache writes are awaited
without a catch, so a cache-write rejection aborts the caller. -/
def resolveDomain (env : Env) (domain : String) :
    Except Unit (List String × List Event) :=
  let v4 := caughtList env.resolve4
  if env.rdnsAdd4Ok then
    let v6 := caughtList env.resolve6
    if env.rdnsAdd6Ok then
      Except.ok (v4 ++ v6,
        [Event.addReverseDns domain v4, Event.addReverseDns domain v6])
    else Except.error ()
  else Except.error ()

/-- `syncDomainIPMapping(domain, options)`: resolve (uncaught), read the
exact reverse-DNS cache entries (caught), in wildcard mode also the pattern
entries (caught), and unconditionally `rclient.saddAsync(key, list)` the
concatenated list (uncaught) — there is no emptiness check on `list`. -/
def syncDomainIPMapping (env : Env) (self : DomainBlock) (domain : String)
    (options : Option Options) (store : Store) : Except Unit (Store × List Event) :=
  let opts := normOptions options
  let key := getDomainIPMappingKey self domain options
  match resolveDomain env domain with
  | Except.error e => Except.error e
  | Except.ok (_, ev1) =>
    let addresses := caughtList env.rdnsExact
    let list :=
      if !opts.exactMatch then addresses ++ caughtList env.rdnsPattern
      else addresses
    if env.saddOk then
      Except.ok (store.sadd key list, ev1 ++ [Event.sadd key list])
    else Except.error ()

/-- The body of `blockDomain` after acquiring the lock:
`dnsmasq.addPolicyFilterEntry(domain).catch(err => undefined)`, the reload
event, `syncDomainIPMapping` (uncaught), `applyBlock` (uncaught), and the
fire-and-forget 60-second reinforcement `setTimeout`. -/
def blockDomainBody (env : Env) (self : DomainBlock) (domain : String)
    (options : Option Options) (store : Store) : Except Unit (Store × List Event) :=
  match catchAsUndefined (if env.dnsmasqAddOk then Except.ok () else Except.error ()) with
  | Except.error e => Except.error e
  | Except.ok _ =>
    match syncDomainIPMapping env self domain options store with
    | Except.error e => Except.error e
    | Except.ok (store1, ev1) =>
      match applyBlock env self domain options store1 with
      | Except.error e => Except.error e
      | Except.ok ev2 =>
        Except.ok (store1,
          [Event.addFilterEntry domain, Event.emitReload]
            ++ ev1 ++ ev2 ++ [Event.scheduleReinforce domain])

/-- The body of `unblockDomain` after acquiring the lock: `unapplyBlock`
(uncaught), then `removeDomainIPMapping` only when `this.externalMapping` is
falsy, then `dnsmasq.removePolicyFilterEntry(domain).catch(err => undefined)`
and the reload event. -/
def unblockDomainBody (env : Env) (self : DomainBlock) (domain : String)
    (options : Option Options) (store : Store) : Except Unit (Store × List Event) :=
  match unapplyBlock env self domain options store with
  | Except.error e => Except.error e
  | Except.ok ev1 =>
    let step2 : Except Unit (Store × List Event) :=
      if !(isTruthy self.externalMapping) then
        removeDomainIPMapping env self domain options store
      else Except.ok (store, [])
    match step2 with
    | Except.error e => Except.error e
    | Except.ok (store1, ev2) =>
      match catchAsUndefined (if env.dnsmasqRemoveOk then Except.ok () else Except.error ()) with
      | Except.error e => Except.error e
      | Except.ok _ =>
        Except.ok (store1,
          ev1 ++ ev2 ++ [Event.removeFilterEntry domain, Event.emitReload])

/-- The `for (let addr in set) if (!existingSet[addr])` loop of
`incrementalUpdateIPMapping`, run on the candidate addresses not already in
the snapshot of existing members: per new address,
`rclient.saddAsync(key, addr)` (uncaught) then
`Block.block(addr, "blocked_domain_set").catch(err => undefined)`. -/
def incrementalLoop (env : Env) (key : String) (addrs : List String) (store : Store) :
    Except Unit (Store × List Event) :=
  match addrs with
  | [] => Except.ok (store, [])
  | addr :: rest =>
    if env.saddOk then
      let store1 := store.sadd key [addr]
      match catchAsUndefined (blockPrim env addr) with
      | Except.error e => Except.error e
      | Except.ok _ =>
        match incrementalLoop env key rest store1 with
        | Except.error e => Except.error e
        | Except.ok (store2, evs) =>
          Except.ok (store2,
            Event.sadd key [addr] :: Event.blockCall addr "blocked_domain_set" :: evs)
    else Except.error ()

/-- The body of `incrementalUpdateIPMapping` after acquiring the lock:
`rclient.existsAsync(key)` (uncaught), silent return when the key does not
exist, otherwise resolve (uncaught), rebuild the candidate set from the
reverse-DNS cache (reads caught; pattern lookup only in wildcard mode),
snapshot the existing members (uncaught), and add-and-block each candidate
not already present — nothing is ever removed or unblocked. -/
def incrementalUpdateIPMappingBody (env : Env) (self : DomainBlock) (domain : String)
    (options : Option Options) (store : Store) : Except Unit (Store × List Event) :=
  let opts := normOptions options
  let key := getDomainIPMappingKey self domain options
  if env.existsOk then
    if !(store.existsKey key) then Except.ok (store, [])
    else
      match resolveDomain env domain with
      | Except.error e => Except.error e
      | Except.ok (_, evR) =>
        let addresses := caughtList env.rdnsExact
        let cand :=
          if !opts.exactMatch then addresses ++ caughtList env.rdnsPattern
          else addresses
        let candSet := dedupKeepFirst cand
        match getMappedIPAddresses env self domain options store with
        | Except.error e => Except.error e
        | Except.ok existing =>
          let newAddrs := candSet.filter (fun a => !(existing.contains a))
          match incrementalLoop env key newAddrs store with
          | Except.error e => Except.error e
          | Except.ok (store2, evs) => Except.ok (store2, evR ++ evs)
  else Except.error ()

/-- The full `blockDomain(domain, options)` invocation chain: if the
observed `globalLock` is set, wait and re-invoke the whole workflow (the
returned promise is the retry's), and the `.finally` still assigns
`globalLock = false` once the retry chain settles; otherwise set the lock,
run the body on the then-current store, and the `.finally` assigns
`globalLock = false` whether the body fulfilled or rejected.  `lockAt n`,
`envAt n` and `storeAt n` are the lock value, oracle and store observed at
the n-th retry round (other tasks may run during the 5-second delays); the
result is the lock value after the promise settles paired with the promise's
outcome, or `none` if the chain has not settled within `fuel` rounds. -/
def blockDomainChain (envAt : Nat → Env) (lockAt : Nat → Bool) (storeAt : Nat → Store)
    (self : DomainBlock) (domain : String) (options : Option Options) :
    Nat → Option (Bool × Except Unit (Store × List Event))
  | 0 => none
  | fuel + 1 =>
    if lockAt 0 then
      match blockDomainChain (fun n => envAt (n + 1)) (fun n => lockAt (n + 1))
          (fun n => storeAt (n + 1)) self domain options fuel with
      | none => none
      | some (_, r) => some (false, r)
    else
      some (false, blockDomainBody (envAt 0) self domain options (storeAt 0))

/-- The full `unblockDomain(domain, options)` invocation chain; same lock
protocol as `blockDomainChain`. -/
def unblockDomainChain (envAt : Nat → Env) (lockAt : Nat → Bool) (storeAt : Nat → Store)
    (self : DomainBlock) (domain : String) (options : Option Options) :
    Nat → Option (Bool × Except Unit (Store × List Event))
  | 0 => none
  | fuel + 1 =>
    if lockAt 0 then
      match unblockDomainChain (fun n => envAt (n + 1)) (fun n => lockAt (n + 1))
          (fun n => storeAt (n + 1)) self domain options fuel with
      | none => none
      | some (_, r) => some (false, r)
    else
      some (false, unblockDomainBody (envAt 0) self domain options (storeAt 0))

/-- The full `incrementalUpdateIPMapping(domain, options)` invocation chain;
same lock protocol as `blockDomainChain`. -/
def incrementalUpdateIPMappingChain (envAt : Nat → Env) (lockAt : Nat → Bool)
    (storeAt : Nat → Store) (self : DomainBlock) (domain : String)
    (options : Option Options) :
    Nat → Option (Bool × Except Unit (Store × List Event))
  | 0 => none
  | fuel + 1 =>
    if lockAt 0 then
      match incrementalUpdateIPMappingChain (fun n => envAt (n + 1)) (fun n => lockAt (n + 1))
          (fun n => storeAt (n + 1)) self domain options fuel with
      | none => none
      | some (_, r) => some (false, r)
    else
      some (false, incrementalUpdateIPMappingBody (envAt 0) self domain options (storeAt 0))

/-- All store operations and reverse-DNS cache writes succeed in `env`;
these are exactly the external calls the code awaits without a catch. -/
def storeOpsOk (env : Env) : Bool :=
  env.saddOk && env.smembersOk && env.existsOk && env.delOk &&
    env.rdnsAdd4Ok && env.rdnsAdd6Ok

/-- Whether an `Except` models a fulfilled promise. -/
def exceptIsOk {α : Type} (r : Except Unit α) : Bool :=
  match r with
  | Except.ok _ => true
  | Except.error _ => false

/-- Whether an event is an unblock call. -/
def isUnblockEvent : Event → Bool
  | Event.unblockCall _ _ => true
  | _ => false

/-- An all-successful oracle with empty DNS answers and caches. -/
def envAllOk : Env :=
  { resolve4 := Except.ok [], resolve6 := Except.ok [],
    rdnsAdd4Ok := true, rdnsAdd6Ok := true,
    rdnsExact := Except.ok [], rdnsPattern := Except.ok [],
    saddOk := true, smembersOk := true, existsOk := true, delOk := true,
    dnsmasqAddOk := true, dnsmasqRemoveOk := true,
    blockFails := fun _ => false, unblockFails := fun _ => false }

/-- The empty store. -/
def storeEmpty : Store := ⟨[]⟩

/-- The union the reconciliation functions build from the reverse-DNS cache:
exact entries, plus pattern entries in wildcard mode. -/
def mergedCandidateList (env : Env) (options : Option Options) : List String :=
  if !(normOptions options).exactMatch then
    caughtList env.rdnsExact ++ caughtList env.rdnsPattern
  else caughtList env.rdnsExact

/-! ### Store lemmas -/

theorem mem_setAdd_left {a : String} (old l : List String) (h : a ∈ old) :
    a ∈ setAdd old l :=
  List.mem_append_left _ h

theorem smembers_sadd_self (s : Store) (key : String) (l : List String) :
    (s.sadd key l).smembers key = setAdd (s.smembers key) l := by
  obtain ⟨entries⟩ := s
  induction entries with
  | nil => simp [Store.sadd, Store.smembers, saddEntries, smembersEntries]
  | cons e rest ih =>
    by_cases h : e.1 = key
    · simp [Store.sadd, Store.smembers, saddEntries, smembersEntries, h]
    · simpa [Store.sadd, Store.smembers, saddEntries, smembersEntries, h] using ih

theorem smembers_sadd_other (s : Store) {k key : String} (l : List String) (hk : k ≠ key) :
    (s.sadd key l).smembers k = s.smembers k := by
  obtain ⟨entries⟩ := s
  induction entries with
  | nil => simp [Store.sadd, Store.smembers, saddEntries, smembersEntries, Ne.symm hk]
  | cons e rest ih =>
    by_cases h : e.1 = key
    · simp [Store.sadd, Store.smembers, saddEntries, smembersEntries, h, Ne.symm hk]
    · by_cases h2 : e.1 = k
      · simp [Store.sadd, Store.smembers, saddEntries, smembersEntries, h, h2, hk]
      · simpa [Store.sadd, Store.smembers, saddEntries, smembersEntries, h, h2] using ih

theorem smembers_sadd_superset (s : Store) (key k a : String) (l : List String)
    (h : a ∈ s.smembers k) : a ∈ (s.sadd key l).smembers k := by
  by_cases hk : k = key
  · subst hk
    rw [smembers_sadd_self]
    exact mem_setAdd_left _ _ h
  · rwa [smembers_sadd_other _ _ hk]

/-! ### Loop and workflow lemmas -/

theorem applyBlockLoop_eq (env : Env) (addrs : List String) :
    applyBlockLoop env addrs =
      Except.ok (addrs.map (fun a => Event.blockCall a "blocked_domain_set")) := by
  induction addrs with
  | nil => rfl
  | cons addr rest ih => simp [applyBlockLoop, catchAsUndefined, ih]

theorem unapplyBlockLoop_eq (env : Env) (addrs : List String) :
    unapplyBlockLoop env addrs =
      Except.ok (addrs.map (fun a => Event.unblockCall a "blocked_domain_set")) := by
  induction addrs with
  | nil => rfl
  | cons addr rest ih => simp [unapplyBlockLoop, catchAsUndefined, ih]

theorem incrementalLoop_ok (env : Env) (key : String) (addrs : List String) (store : Store)
    (hs : env.saddOk = true) :
    exceptIsOk (incrementalLoop env key addrs store) = true := by
  induction addrs generalizing store with
  | nil => rfl
  | cons addr rest ih =>
    have h2 := ih (store.sadd key [addr])
    unfold incrementalLoop
    rw [hs]
    simp only [catchAsUndefined]
    rcases hr : incrementalLoop env key rest (store.sadd key [addr]) with r | ⟨s2, evs⟩
    · rw [hr] at h2
      exact absurd h2 (by simp [exceptIsOk])
    · simp [exceptIsOk]

theorem incrementalLoop_superset (env : Env) (key : String) (addrs : List String) :
    ∀ store store2 evs, incrementalLoop env key addrs store = Except.ok (store2, evs) →
      (∀ k a, a ∈ store.smembers k → a ∈ store2.smembers k) ∧
      (∀ e ∈ evs, isUnblockEvent e = false) := by
  induction addrs with
  | nil =>
    intro store store2 evs h
    simp only [incrementalLoop] at h
    cases h
    exact ⟨fun _ _ h => h, by simp⟩
  | cons addr rest ih =>
    intro store store2 evs h
    unfold incrementalLoop at h
    rcases hs : env.saddOk with _ | _
    · simp [hs] at h
    · simp only [hs, if_pos, catchAsUndefined] at h
      rcases hr : incrementalLoop env key rest (store.sadd key [addr]) with r | ⟨s2, evs2⟩
      · rw [hr] at h; exact absurd h (by simp)
      · rw [hr] at h
        rw [Except.ok.injEq, Prod.mk.injEq] at h
        obtain ⟨h1, h2⟩ := h
        subst h1
        subst h2
        obtain ⟨hsup, hev⟩ := ih (store.sadd key [addr]) s2 evs2 hr
        refine ⟨fun k a ha => hsup k a (smembers_sadd_superset _ _ _ _ _ ha), ?_⟩
        intro e he
        simp only [List.mem_cons] at he
        rcases he with rfl | rfl | he3
        · rfl
        · rfl
        · exact hev e he3

theorem resolveDomain_eq (env : Env) (domain : String)
    (h4 : env.rdnsAdd4Ok = true) (h6 : env.rdnsAdd6Ok = true) :
    resolveDomain env domain =
      Except.ok (caughtList env.resolve4 ++ caughtList env.resolve6,
        [Event.addReverseDns domain (caughtList env.resolve4),
         Event.addReverseDns domain (caughtList env.resolve6)]) := by
  simp [resolveDomain, h4, h6]

theorem resolveDomain_events (env : Env) (domain : String) (l : List String)
    (evs : List Event) (h : resolveDomain env domain = Except.ok (l, evs)) :
    ∀ e ∈ evs, isUnblockEvent e = false := by
  have h4 : env.rdnsAdd4Ok = true := by
    by_contra hc
    have hf : env.rdnsAdd4Ok = false := by simpa using hc
    simp [resolveDomain, hf] at h
  have h6 : env.rdnsAdd6Ok = true := by
    by_contra hc
    have hf : env.rdnsAdd6Ok = false := by simpa using hc
    simp [resolveDomain, h4, hf] at h
  rw [resolveDomain_eq env domain h4 h6] at h
  cases h
  intro e he
  simp only [List.mem_cons] at he
  rcases he with rfl | rfl | he3
  · rfl
  · rfl
  · exact absurd he3 (by simp)

theorem syncDomainIPMapping_eq (env : Env) (self : DomainBlock) (domain : String)
    (options : Option Options) (store : Store)
    (h4 : env.rdnsAdd4Ok = true) (h6 : env.rdnsAdd6Ok = true) (hs : env.saddOk = true) :
    syncDomainIPMapping env self domain options store =
      Except.ok
        (store.sadd (getDomainIPMappingKey self domain options) (mergedCandidateList env options),
         [Event.addReverseDns domain (caughtList env.resolve4),
          Event.addReverseDns domain (caughtList env.resolve6),
          Event.sadd (getDomainIPMappingKey self domain options)
            (mergedCandidateList env options)]) := by
  unfold syncDomainIPMapping
  rw [resolveDomain_eq env domain h4 h6]
  simp [hs, mergedCandidateList]

theorem applyBlock_eq (env : Env) (self : DomainBlock) (domain : String)
    (options : Option Options) (store : Store) (h : env.smembersOk = true) :
    applyBlock env self domain options store =
      Except.ok ((store.smembers (getDomainIPMappingKey self domain options)).map
        (fun a => Event.blockCall a "blocked_domain_set")) := by
  simp [applyBlock, getMappedIPAddresses, h, applyBlockLoop_eq]

theorem unapplyBlock_eq (env : Env) (self : DomainBlock) (domain : String)
    (options : Option Options) (store : Store) (h : env.smembersOk = true) :
    unapplyBlock env self domain options store =
      Except.ok ((store.smembers (getDomainIPMappingKey self domain options)).map
        (fun a => Event.unblockCall a "blocked_domain_set")) := by
  simp [unapplyBlock, getMappedIPAddresses, h, unapplyBlockLoop_eq]

theorem incrementalLoop_ne_error (env : Env) (key : String) (addrs : List String)
    (store : Store) (e : Unit) (hs : env.saddOk = true) :
    incrementalLoop env key addrs store ≠ Except.error e := by
  intro h
  have hloop := incrementalLoop_ok env key addrs store hs
  rw [h] at hloop
  exact absurd hloop (by simp [exceptIsOk])

theorem blockDomainBody_ok (env : Env) (self : DomainBlock) (domain : String)
    (options : Option Options) (store : Store) (h : storeOpsOk env = true) :
    exceptIsOk (blockDomainBody env self domain options store) = true := by
  simp only [storeOpsOk, Bool.and_eq_true] at h
  obtain ⟨⟨⟨⟨⟨hsadd, hsm⟩, hex⟩, hdel⟩, h4⟩, h6⟩ := h
  unfold blockDomainBody
  rw [syncDomainIPMapping_eq env self domain options store h4 h6 hsadd]
  simp only [catchAsUndefined]
  rw [applyBlock_eq env self domain options _ hsm]
  rfl

theorem unblockDomainBody_ok (env : Env) (self : DomainBlock) (domain : String)
    (options : Option Options) (store : Store) (h : storeOpsOk env = true) :
    exceptIsOk (unblockDomainBody env self domain options store) = true := by
  simp only [storeOpsOk, Bool.and_eq_true] at h
  obtain ⟨⟨⟨⟨⟨hsadd, hsm⟩, hex⟩, hdel⟩, h4⟩, h6⟩ := h
  unfold unblockDomainBody
  rw [unapplyBlock_eq env self domain options store hsm]
  rcases ht : isTruthy self.externalMapping with _ | _
  · simp [ht, removeDomainIPMapping, hdel, catchAsUndefined, exceptIsOk]
  · simp [ht, catchAsUndefined, exceptIsOk]

theorem incrementalUpdateIPMappingBody_ok (env : Env) (self : DomainBlock) (domain : String)
    (options : Option Options) (store : Store) (h : storeOpsOk env = true) :
    exceptIsOk (incrementalUpdateIPMappingBody env self domain options store) = true := by
  simp only [storeOpsOk, Bool.and_eq_true] at h
  obtain ⟨⟨⟨⟨⟨hsadd, hsm⟩, hex⟩, hdel⟩, h4⟩, h6⟩ := h
  unfold incrementalUpdateIPMappingBody
  rw [resolveDomain_eq env domain h4 h6]
  simp only [hex, getMappedIPAddresses, hsm, if_true]
  split
  · rfl
  · split
    · rename_i e heq
      exact absurd heq (incrementalLoop_ne_error _ _ _ _ _ hsadd)
    · rfl

theorem incrementalBody_superset (env : Env) (self : DomainBlock) (domain : String)
    (options : Option Options) (store s1 : Store) (evs : List Event)
    (h : incrementalUpdateIPMappingBody env self domain options store = Except.ok (s1, evs)) :
    (∀ k a, a ∈ store.smembers k → a ∈ s1.smembers k) ∧
    (∀ e ∈ evs, isUnblockEvent e = false) := by
  unfold incrementalUpdateIPMappingBody at h
  rcases hok : env.existsOk with _ | _
  · simp [hok] at h
  · simp only [hok, if_pos] at h
    rcases hk : store.existsKey (getDomainIPMappingKey self domain options) with _ | _
    · simp only [hk, Bool.not_false, if_pos] at h
      rw [Except.ok.injEq, Prod.mk.injEq] at h
      obtain ⟨h1, h2⟩ := h
      subst h1; subst h2
      exact ⟨fun _ _ ha => ha, by simp⟩
    · simp only [hk, Bool.not_true] at h
      rw [if_neg (by simp)] at h
      rcases hres : resolveDomain env domain with e | ⟨resFst, evR⟩
      · simp [hres] at h
      · simp only [hres] at h
        rcases hmap : getMappedIPAddresses env self domain options store with e | existing
        · simp [hmap] at h
        · simp only [hmap] at h
          split at h
          · cases h
          · rename_i s2 evs2 heqLoop
            rw [Except.ok.injEq, Prod.mk.injEq] at h
            obtain ⟨h1, h2⟩ := h
            subst h1; subst h2
            obtain ⟨hsup, hev⟩ := incrementalLoop_superset _ _ _ _ _ _ heqLoop
            refine ⟨hsup, ?_⟩
            intro e he
            rcases List.mem_append.mp he with h' | h'
            · exact resolveDomain_events env domain resFst evR hres e h'
            · exact hev e h'

theorem blockDomainChain_ok (envAt : Nat → Env) (lockAt : Nat → Bool) (storeAt : Nat → Store)
    (self : DomainBlock) (domain : String) (options : Option Options) (fuel : Nat)
    (hok : ∀ n, storeOpsOk (envAt n) = true) :
    ((blockDomainChain envAt lockAt storeAt self domain options fuel).map
      (fun p => exceptIsOk p.2)).getD true = true := by
  induction fuel generalizing envAt lockAt storeAt with
  | zero => rfl
  | succ n ih =>
    unfold blockDomainChain
    rcases hl : lockAt 0 with _ | _
    · simp [hl, blockDomainBody_ok (envAt 0) self domain options (storeAt 0) (hok 0)]
    · have hrec := ih (fun n => envAt (n + 1)) (fun n => lockAt (n + 1))
        (fun n => storeAt (n + 1)) (fun n => hok (n + 1))
      rcases hr : blockDomainChain (fun n => envAt (n + 1)) (fun n => lockAt (n + 1))
          (fun n => storeAt (n + 1)) self domain options n with _ | ⟨b, r⟩
      · simp [hl, hr]
      · rw [hr] at hrec
        simpa [hl, hr] using hrec

theorem unblockDomainChain_ok (envAt : Nat → Env) (lockAt : Nat → Bool) (storeAt : Nat → Store)
    (self : DomainBlock) (domain : String) (options : Option Options) (fuel : Nat)
    (hok : ∀ n, storeOpsOk (envAt n) = true) :
    ((unblockDomainChain envAt lockAt storeAt self domain options fuel).map
      (fun p => exceptIsOk p.2)).getD true = true := by
  induction fuel generalizing envAt lockAt storeAt with
  | zero => rfl
  | succ n ih =>
    unfold unblockDomainChain
    rcases hl : lockAt 0 with _ | _
    · simp [hl, unblockDomainBody_ok (envAt 0) self domain options (storeAt 0) (hok 0)]
    · have hrec := ih (fun n => envAt (n + 1)) (fun n => lockAt (n + 1))
        (fun n => storeAt (n + 1)) (fun n => hok (n + 1))
      rcases hr : unblockDomainChain (fun n => envAt (n + 1)) (fun n => lockAt (n + 1))
          (fun n => storeAt (n + 1)) self domain options n with _ | ⟨b, r⟩
      · simp [hl, hr]
      · rw [hr] at hrec
        simpa [hl, hr] using hrec

theorem incrementalUpdateIPMappingChain_ok (envAt : Nat → Env) (lockAt : Nat → Bool)
    (storeAt : Nat → Store) (self : DomainBlock) (domain : String) (options : Option Options)
    (fuel : Nat) (hok : ∀ n, storeOpsOk (envAt n) = true) :
    ((incrementalUpdateIPMappingChain envAt lockAt storeAt self domain options fuel).map
      (fun p => exceptIsOk p.2)).getD true = true := by
  induction fuel generalizing envAt lockAt storeAt with
  | zero => rfl
  | succ n ih =>
    unfold incrementalUpdateIPMappingChain
    rcases hl : lockAt 0 with _ | _
    · simp [hl,
        incrementalUpdateIPMappingBody_ok (envAt 0) self domain options (storeAt 0) (hok 0)]
    · have hrec := ih (fun n => envAt (n + 1)) (fun n => lockAt (n + 1))
        (fun n => storeAt (n + 1)) (fun n => hok (n + 1))
      rcases hr : incrementalUpdateIPMappingChain (fun n => envAt (n + 1))
          (fun n => lockAt (n + 1)) (fun n => storeAt (n + 1)) self domain options n
          with _ | ⟨b, r⟩
      · simp [hl, hr]
      · rw [hr] at hrec
        simpa [hl, hr] using hrec

theorem blockDomainChain_lock (envAt : Nat → Env) (lockAt : Nat → Bool) (storeAt : Nat → Store)
    (self : DomainBlock) (domain : String) (options : Option Options) (fuel : Nat) :
    ((blockDomainChain envAt lockAt storeAt self domain options fuel).map
      Prod.fst).getD false = false := by
  cases fuel with
  | zero => rfl
  | succ n =>
    unfold blockDomainChain
    rcases hl : lockAt 0 with _ | _
    · simp [hl]
    · rcases hr : blockDomainChain (fun n => envAt (n + 1)) (fun n => lockAt (n + 1))
          (fun n => storeAt (n + 1)) self domain options n with _ | ⟨b, r⟩ <;>
        simp [hl, hr]

theorem unblockDomainChain_lock (envAt : Nat → Env) (lockAt : Nat → Bool)
    (storeAt : Nat → Store) (self : DomainBlock) (domain : String)
    (options : Option Options) (fuel : Nat) :
    ((unblockDomainChain envAt lockAt storeAt self domain options fuel).map
      Prod.fst).getD false = false := by
  cases fuel with
  | zero => rfl
  | succ n =>
    unfold unblockDomainChain
    rcases hl : lockAt 0 with _ | _
    · simp [hl]
    · rcases hr : unblockDomainChain (fun n => envAt (n + 1)) (fun n => lockAt (n + 1))
          (fun n => storeAt (n + 1)) self domain options n with _ | ⟨b, r⟩ <;>
        simp [hl, hr]

theorem incrementalUpdateIPMappingChain_lock (envAt : Nat → Env) (lockAt : Nat → Bool)
    (storeAt : Nat → Store) (self : DomainBlock) (domain : String)
    (options : Option Options) (fuel : Nat) :
    ((incrementalUpdateIPMappingChain envAt lockAt storeAt self domain options fuel).map
      Prod.fst).getD false = false := by
  cases fuel with
  | zero => rfl
  | succ n =>
    unfold incrementalUpdateIPMappingChain
    rcases hl : lockAt 0 with _ | _
    · simp [hl]
    · rcases hr : incrementalUpdateIPMappingChain (fun n => envAt (n + 1))
          (fun n => lockAt (n + 1)) (fun n => storeAt (n + 1)) self domain options n
          with _ | ⟨b, r⟩ <;>
        simp [hl, hr]

/-- The external-mapping override actually honoured by the code: the instance
property, when truthy, is returned verbatim by the key resolver, whatever
`options` holds. -/
theorem getDomainIPMappingKey_external (self : DomainBlock) (domain : String)
    (options : Option Options) (k : String) (hk : self.externalMapping = some k)
    (hne : k ≠ "") : getDomainIPMappingKey self domain options = k := by
  simp [getDomainIPMappingKey, isTruthy, hk, hne]

/-- `incrementalLoop` never consults the pattern-lookup outcome. -/
theorem incrementalLoop_pattern_invariant (env : Env) (p : Except Unit (List String))
    (key : String) (addrs : List String) (store : Store) :
    incrementalLoop { env with rdnsPattern := p } key addrs store
      = incrementalLoop env key addrs store := by
  induction addrs generalizing store with
  | nil => rfl
  | cons addr rest ih => simp [incrementalLoop, blockPrim, catchAsUndefined, ih]

/-! ### Concrete instances used by counterexamples and witnesses -/

def envSaddFail : Env := { envAllOk with saddOk := false }

def envCaughtFails : Env :=
  { envAllOk with
    resolve4 := Except.error ()
    rdnsExact := Except.error ()
    dnsmasqAddOk := false
    blockFails := fun _ => true }

def envRdns5678 : Env := { envAllOk with rdnsExact := Except.ok ["5.6.7.8"] }

def envPat9 : Env := { envAllOk with rdnsPattern := Except.ok ["9.9.9.9"] }

def envBlockFail : Env := { envAllOk with blockFails := fun a => a == "1.2.3.4" }

def storeOneAddr : Store := ⟨[("ipmapping:domain:example.com", ["1.2.3.4"])]⟩

def storeTwoAddr : Store := ⟨[("ipmapping:domain:example.com", ["1.2.3.4", "5.6.7.8"])]⟩

def storeExt : Store := ⟨[("extkey", ["9.9.9.9"])]⟩

/-! ### Claims -/

/-- Claim C1, counterexample: with `options.externalMapping = "mykey"` and the
instance property `this.externalMapping` unset, `getDomainIPMappingKey` does
not return the string verbatim — it returns the derived wildcard key.  The
code reads the override from the instance property, never from `options`. -/
theorem claim_C1_counterexample :
    getDomainIPMappingKey ⟨none⟩ "example.com"
        (some { exactMatch := false, externalMapping := some "mykey" }) ≠ "mykey"
    ∧ getDomainIPMappingKey ⟨none⟩ "example.com"
        (some { exactMatch := false, externalMapping := some "mykey" })
      = "ipmapping:domain:example.com" := by
  constructor
  · decide
  · decide

/-- Claim C1 (amended): the mapping-key resolver returns the override
verbatim only when it is set as the instance property
`this.externalMapping` (to a truthy, i.e. nonempty, string); it is then
returned for every domain and every options object, regardless of
`options.exactMatch`.  `options.externalMapping` has no effect on the key. -/
theorem claim_C1 (self : DomainBlock) (domain : String) (options : Option Options)
    (k : String) (hk : self.externalMapping = some k) (hne : k ≠ "") :
    getDomainIPMappingKey self domain options = k :=
  getDomainIPMappingKey_external self domain options k hk hne

/-- Witness for C1 at a concrete instance, options and domain. -/
theorem claim_C1_witness :
    (DomainBlock.mk (some "extkey")).externalMapping = some "extkey"
    ∧ ("extkey" : String) ≠ ""
    ∧ getDomainIPMappingKey (DomainBlock.mk (some "extkey")) "example.com"
        (some { exactMatch := true, externalMapping := some "other" }) = "extkey" :=
  ⟨rfl, by decide,
    claim_C1 (DomainBlock.mk (some "extkey")) "example.com"
      (some { exactMatch := true, externalMapping := some "other" }) "extkey" rfl (by decide)⟩

/-- Claim C2, counterexample: a mapping-store failure (the `saddAsync` inside
`syncDomainIPMapping` rejecting) is not caught, so the enclosing
`blockDomain` workflow settles with a rejected promise (`Except.error`) —
a transient persistent-store failure does abort the workflow. -/
theorem claim_C2_counterexample :
    blockDomainChain (fun _ => envSaddFail) (fun _ => false) (fun _ => storeEmpty)
        ⟨none⟩ "example.com" none 1
      = some (false, Except.error ()) := by
  decide

/-- Claim C2 (amended): DNS resolution failures, reverse-DNS cache read
failures, block/unblock-primitive failures and dnsmasq filter failures are
caught and contribute nothing; but the persistent-store operations and the
reverse-DNS cache writes are awaited without a catch.  Provided those
succeed (`storeOpsOk`), every settled `blockDomain`, `unblockDomain` and
`incrementalUpdateIPMapping` invocation fulfills, for every outcome of the
caught external calls and any lock-contention deferrals. -/
theorem claim_C2 (envAt : Nat → Env) (lockAt : Nat → Bool) (storeAt : Nat → Store)
    (self : DomainBlock) (domain : String) (options : Option Options) (fuel : Nat)
    (hok : ∀ n, storeOpsOk (envAt n) = true) :
    ((blockDomainChain envAt lockAt storeAt self domain options fuel).map
        (fun p => exceptIsOk p.2)).getD true = true
    ∧ ((unblockDomainChain envAt lockAt storeAt self domain options fuel).map
        (fun p => exceptIsOk p.2)).getD true = true
    ∧ ((incrementalUpdateIPMappingChain envAt lockAt storeAt self domain options fuel).map
        (fun p => exceptIsOk p.2)).getD true = true :=
  ⟨blockDomainChain_ok envAt lockAt storeAt self domain options fuel hok,
   unblockDomainChain_ok envAt lockAt storeAt self domain options fuel hok,
   incrementalUpdateIPMappingChain_ok envAt lockAt storeAt self domain options fuel hok⟩

/-- Witness for C2 at a concrete oracle in which every caught call fails
(DNS rejects, reverse-DNS read rejects, dnsmasq rejects, every block call
rejects) and the first round finds the lock held. -/
theorem claim_C2_witness :
    (∀ n : Nat, storeOpsOk ((fun _ => envCaughtFails) n) = true)
    ∧ ((blockDomainChain (fun _ => envCaughtFails) (fun n => n == 0) (fun _ => storeEmpty)
        ⟨none⟩ "example.com" none 2).map (fun p => exceptIsOk p.2)).getD true = true := by
  refine ⟨fun _ => rfl, ?_⟩
  exact (claim_C2 (fun _ => envCaughtFails) (fun n => n == 0) (fun _ => storeEmpty)
    ⟨none⟩ "example.com" none 2 (fun _ => rfl)).1

/-- Claim C3, counterexample: with `options.externalMapping = "mykey"` but
the instance property unset, `unblockDomain` does delete the (derived)
mapping key: after the run the key's member set is empty, not unchanged. -/
theorem claim_C3_counterexample :
    unblockDomainBody envAllOk ⟨none⟩ "example.com"
        (some { exactMatch := false, externalMapping := some "mykey" }) storeOneAddr
      = Except.ok (storeEmpty,
          [Event.unblockCall "1.2.3.4" "blocked_domain_set",
           Event.del "ipmapping:domain:example.com",
           Event.removeFilterEntry "example.com", Event.emitReload])
    ∧ storeEmpty.smembers "ipmapping:domain:example.com"
      ≠ storeOneAddr.smembers "ipmapping:domain:example.com" := by
  constructor
  · decide
  · decide

/-- Claim C3 (amended): when the override is in effect as the instance
property `this.externalMapping` (truthy), `unblockDomain` issues unblock
calls for exactly the mapped addresses and leaves the store — in particular
the mapping key and its full member set — completely unchanged, issuing
no delete. -/
theorem claim_C3 (env : Env) (self : DomainBlock) (domain : String)
    (options : Option Options) (store : Store) {s1 : Store} {evs : List Event} (k : String)
    (hk : self.externalMapping = some k) (hne : k ≠ "")
    (h : unblockDomainBody env self domain options store = Except.ok (s1, evs)) :
    s1 = store
    ∧ evs = (store.smembers k).map (fun a => Event.unblockCall a "blocked_domain_set")
        ++ [Event.removeFilterEntry domain, Event.emitReload] := by
  have hsm : env.smembersOk = true := by
    by_contra hc
    have hf : env.smembersOk = false := by simpa using hc
    simp [unblockDomainBody, unapplyBlock, getMappedIPAddresses, hf] at h
  have ht : isTruthy self.externalMapping = true := by simp [isTruthy, hk, hne]
  unfold unblockDomainBody at h
  rw [unapplyBlock_eq env self domain options store hsm,
    getDomainIPMappingKey_external self domain options k hk hne] at h
  simp only [ht, Bool.not_true, catchAsUndefined] at h
  rw [if_neg (by simp)] at h
  rw [Except.ok.injEq, Prod.mk.injEq] at h
  obtain ⟨h1, h2⟩ := h
  refine ⟨h1.symm, ?_⟩
  rw [← h2]
  simp

/-- Witness for C3 at a concrete instance whose external mapping holds one
address. -/
theorem claim_C3_witness :
    (DomainBlock.mk (some "extkey")).externalMapping = some "extkey"
    ∧ ("extkey" : String) ≠ ""
    ∧ unblockDomainBody envAllOk (DomainBlock.mk (some "extkey")) "example.com" none storeExt
      = Except.ok (storeExt,
          [Event.unblockCall "9.9.9.9" "blocked_domain_set",
           Event.removeFilterEntry "example.com", Event.emitReload])
    ∧ storeExt = storeExt
    ∧ [Event.unblockCall "9.9.9.9" "blocked_domain_set",
       Event.removeFilterEntry "example.com", Event.emitReload]
      = (storeExt.smembers "extkey").map (fun a => Event.unblockCall a "blocked_domain_set")
        ++ [Event.removeFilterEntry "example.com", Event.emitReload] := by
  have h : unblockDomainBody envAllOk (DomainBlock.mk (some "extkey")) "example.com" none
      storeExt
      = Except.ok (storeExt,
          [Event.unblockCall "9.9.9.9" "blocked_domain_set",
           Event.removeFilterEntry "example.com", Event.emitReload]) := by decide
  have happ := claim_C3 envAllOk (DomainBlock.mk (some "extkey")) "example.com" none storeExt
    "extkey" rfl (by decide) h
  exact ⟨rfl, by decide, h, happ.1, happ.2⟩

/-- Claim C4: a reconciliation pass (the body of
`incrementalUpdateIPMapping`) only adds addresses — every member of every
key before the pass is still a member after it, no unblock call is ever
issued — and across two consecutive passes the final mapping is a superset
of the initial one. -/
theorem claim_C4 (env env2 : Env) (self : DomainBlock) (domain : String)
    (options : Option Options) (store : Store) {s1 s2 : Store} {evs evs2 : List Event}
    (h1 : incrementalUpdateIPMappingBody env self domain options store = Except.ok (s1, evs))
    (h2 : incrementalUpdateIPMappingBody env2 self domain options s1 = Except.ok (s2, evs2)) :
    (∀ k a, a ∈ store.smembers k → a ∈ s1.smembers k)
    ∧ (∀ e ∈ evs, isUnblockEvent e = false)
    ∧ (∀ e ∈ evs2, isUnblockEvent e = false)
    ∧ (∀ k a, a ∈ store.smembers k → a ∈ s2.smembers k) := by
  obtain ⟨ha, hb⟩ := incrementalBody_superset env self domain options store s1 evs h1
  obtain ⟨hc, hd⟩ := incrementalBody_superset env2 self domain options s1 s2 evs2 h2
  exact ⟨ha, hb, hd, fun k a hmem => hc k a (ha k a hmem)⟩

/-- Witness for C4: two concrete passes over an existing one-address
mapping; the first adds `5.6.7.8` (and blocks it), the second is a no-op,
and `1.2.3.4` stays in the mapping throughout. -/
theorem claim_C4_witness :
    incrementalUpdateIPMappingBody envRdns5678 ⟨none⟩ "example.com" none storeOneAddr
      = Except.ok (storeTwoAddr,
          [Event.addReverseDns "example.com" [], Event.addReverseDns "example.com" [],
           Event.sadd "ipmapping:domain:example.com" ["5.6.7.8"],
           Event.blockCall "5.6.7.8" "blocked_domain_set"])
    ∧ incrementalUpdateIPMappingBody envRdns5678 ⟨none⟩ "example.com" none storeTwoAddr
      = Except.ok (storeTwoAddr,
          [Event.addReverseDns "example.com" [], Event.addReverseDns "example.com" []])
    ∧ (∀ k a, a ∈ storeOneAddr.smembers k → a ∈ storeTwoAddr.smembers k)
    ∧ "1.2.3.4" ∈ storeTwoAddr.smembers "ipmapping:domain:example.com" := by
  have h1 : incrementalUpdateIPMappingBody envRdns5678 ⟨none⟩ "example.com" none storeOneAddr
      = Except.ok (storeTwoAddr,
          [Event.addReverseDns "example.com" [], Event.addReverseDns "example.com" [],
           Event.sadd "ipmapping:domain:example.com" ["5.6.7.8"],
           Event.blockCall "5.6.7.8" "blocked_domain_set"]) := by decide
  have h2 : incrementalUpdateIPMappingBody envRdns5678 ⟨none⟩ "example.com" none storeTwoAddr
      = Except.ok (storeTwoAddr,
          [Event.addReverseDns "example.com" [], Event.addReverseDns "example.com" []]) := by
    decide
  have happ := claim_C4 envRdns5678 envRdns5678 ⟨none⟩ "example.com" none storeOneAddr h1 h2
  exact ⟨h1, h2, happ.1,
    happ.2.2.2 "ipmapping:domain:example.com" "1.2.3.4" (by decide)⟩

/-- Claim C5: `applyBlock` (resp. `unapplyBlock`) issues exactly one block
(unblock) call per mapped address, in order, for every oracle — in
particular for oracles in which the block primitive fails on any subset of
the addresses: each per-address rejection is swallowed and every remaining
address still receives its call. -/
theorem claim_C5 (env : Env) (self : DomainBlock) (domain : String)
    (options : Option Options) (store : Store) (h : env.smembersOk = true) :
    applyBlock env self domain options store =
      Except.ok ((store.smembers (getDomainIPMappingKey self domain options)).map
        (fun a => Event.blockCall a "blocked_domain_set"))
    ∧ unapplyBlock env self domain options store =
      Except.ok ((store.smembers (getDomainIPMappingKey self domain options)).map
        (fun a => Event.unblockCall a "blocked_domain_set")) :=
  ⟨applyBlock_eq env self domain options store h,
   unapplyBlock_eq env self domain options store h⟩

/-- Witness for C5: a two-address mapping with an oracle whose block
primitive fails on the first address — both addresses still receive their
block call. -/
theorem claim_C5_witness :
    envBlockFail.smembersOk = true
    ∧ envBlockFail.blockFails "1.2.3.4" = true
    ∧ applyBlock envBlockFail ⟨none⟩ "example.com" none storeTwoAddr
      = Except.ok [Event.blockCall "1.2.3.4" "blocked_domain_set",
          Event.blockCall "5.6.7.8" "blocked_domain_set"] := by
  refine ⟨rfl, rfl, ?_⟩
  rw [(claim_C5 envBlockFail ⟨none⟩ "example.com" none storeTwoAddr rfl).1]
  decide

/-- Claim C6: in exact-match mode neither `syncDomainIPMapping` nor the body
of `incrementalUpdateIPMapping` consults the pattern/wildcard reverse-DNS
lookup: replacing the oracle's pattern-lookup outcome by anything else
leaves their results (store and trace) unchanged, for every cache state. -/
theorem claim_C6 (env : Env) (p : Except Unit (List String)) (self : DomainBlock)
    (domain : String) (opts : Options) (store : Store) (h : opts.exactMatch = true) :
    syncDomainIPMapping { env with rdnsPattern := p } self domain (some opts) store
      = syncDomainIPMapping env self domain (some opts) store
    ∧ incrementalUpdateIPMappingBody { env with rdnsPattern := p } self domain (some opts) store
      = incrementalUpdateIPMappingBody env self domain (some opts) store := by
  constructor
  · simp [syncDomainIPMapping, resolveDomain, normOptions, h]
  · simp [incrementalUpdateIPMappingBody, resolveDomain, getMappedIPAddresses, normOptions, h,
      incrementalLoop_pattern_invariant]

/-- Witness for C6: with pattern entries `["9.9.9.9"]` in the cache and
exact mode on, replacing the pattern lookup by a failure changes nothing. -/
theorem claim_C6_witness :
    (Options.mk true none).exactMatch = true
    ∧ syncDomainIPMapping { envPat9 with rdnsPattern := Except.error () } ⟨none⟩ "example.com"
        (some (Options.mk true none)) storeEmpty
      = syncDomainIPMapping envPat9 ⟨none⟩ "example.com" (some (Options.mk true none)) storeEmpty
    ∧ incrementalUpdateIPMappingBody { envPat9 with rdnsPattern := Except.error () } ⟨none⟩
        "example.com" (some (Options.mk true none)) storeOneAddr
      = incrementalUpdateIPMappingBody envPat9 ⟨none⟩ "example.com"
        (some (Options.mk true none)) storeOneAddr := by
  refine ⟨rfl, ?_, ?_⟩
  · exact (claim_C6 envPat9 (Except.error ()) ⟨none⟩ "example.com" (Options.mk true none)
      storeEmpty rfl).1
  · exact (claim_C6 envPat9 (Except.error ()) ⟨none⟩ "example.com" (Options.mk true none)
      storeOneAddr rfl).2

/-- Claim C7: with no external-mapping override in effect, the derived key is
exactly `ipmapping:exactdomain:<domain>` in exact mode and
`ipmapping:domain:<domain>` otherwise — including when `options` is absent
(exactMatch defaults to wildcard mode) — and the two keys for the same
domain are distinct. -/
theorem claim_C7 (self : DomainBlock) (domain : String) (em : Option String)
    (h : self.externalMapping = none) :
    getDomainIPMappingKey self domain (some (Options.mk true em))
      = "ipmapping:exactdomain:" ++ domain
    ∧ getDomainIPMappingKey self domain (some (Options.mk false em))
      = "ipmapping:domain:" ++ domain
    ∧ getDomainIPMappingKey self domain none = "ipmapping:domain:" ++ domain
    ∧ "ipmapping:exactdomain:" ++ domain ≠ "ipmapping:domain:" ++ domain := by
  refine ⟨?_, ?_, ?_, ?_⟩
  · simp [getDomainIPMappingKey, isTruthy, h, normOptions]
  · simp [getDomainIPMappingKey, isTruthy, h, normOptions]
  · simp [getDomainIPMappingKey, isTruthy, h, normOptions]
  · intro heq
    have hl := congrArg String.length heq
    rw [String.length_append, String.length_append] at hl
    have e1 : "ipmapping:exactdomain:".length = 22 := by decide
    have e2 : "ipmapping:domain:".length = 17 := by decide
    rw [e1, e2] at hl
    omega

/-- Witness for C7 at `example.com`. -/
theorem claim_C7_witness :
    (DomainBlock.mk none).externalMapping = none
    ∧ getDomainIPMappingKey (DomainBlock.mk none) "example.com"
        (some (Options.mk true none)) = "ipmapping:exactdomain:" ++ "example.com"
    ∧ getDomainIPMappingKey (DomainBlock.mk none) "example.com" none
      = "ipmapping:domain:" ++ "example.com" := by
  have happ := claim_C7 (DomainBlock.mk none) "example.com" none rfl
  exact ⟨rfl, happ.1, happ.2.2.1⟩

/-- Claim C8: with no external-mapping override and a two-address mapping,
`unblockDomain`'s body issues the two unblock calls, then deletes the
mapping key, then removes the DNS policy filter entry (and then emits the
reload event). -/
theorem claim_C8 (env : Env) (self : DomainBlock) (domain : String)
    (options : Option Options) (store : Store) (a1 a2 : String)
    (hext : self.externalMapping = none)
    (hm : store.smembers (getDomainIPMappingKey self domain options) = [a1, a2])
    (hsm : env.smembersOk = true) (hdel : env.delOk = true) :
    unblockDomainBody env self domain options store =
      Except.ok (store.del (getDomainIPMappingKey self domain options),
        [Event.unblockCall a1 "blocked_domain_set",
         Event.unblockCall a2 "blocked_domain_set",
         Event.del (getDomainIPMappingKey self domain options),
         Event.removeFilterEntry domain, Event.emitReload]) := by
  have ht : isTruthy self.externalMapping = false := by simp [isTruthy, hext]
  unfold unblockDomainBody
  rw [unapplyBlock_eq env self domain options store hsm, hm]
  simp [ht, removeDomainIPMapping, hdel, catchAsUndefined]

/-- Witness for C8: the concrete two-address mapping of `example.com`. -/
theorem claim_C8_witness :
    storeTwoAddr.smembers (getDomainIPMappingKey ⟨none⟩ "example.com" none)
      = ["1.2.3.4", "5.6.7.8"]
    ∧ unblockDomainBody envAllOk ⟨none⟩ "example.com" none storeTwoAddr
      = Except.ok (storeEmpty,
          [Event.unblockCall "1.2.3.4" "blocked_domain_set",
           Event.unblockCall "5.6.7.8" "blocked_domain_set",
           Event.del "ipmapping:domain:example.com",
           Event.removeFilterEntry "example.com", Event.emitReload]) := by
  refine ⟨by decide, ?_⟩
  rw [claim_C8 envAllOk ⟨none⟩ "example.com" none storeTwoAddr "1.2.3.4" "5.6.7.8" rfl
    (by decide) rfl rfl]
  decide

/-- Claim C9: every `blockDomain`, `unblockDomain` and
`incrementalUpdateIPMapping` invocation chain that settles leaves the global
lock flag `false` — including chains whose first rounds found the lock held
and deferred to a retry, whose own cleanup handler still assigns `false`
after the retry resolves; and with the lock observed free, each chain does
settle in one round. -/
theorem claim_C9 (envAt : Nat → Env) (lockAt : Nat → Bool) (storeAt : Nat → Store)
    (self : DomainBlock) (domain : String) (options : Option Options) (fuel : Nat) :
    ((blockDomainChain envAt lockAt storeAt self domain options fuel).map
      Prod.fst).getD false = false
    ∧ ((unblockDomainChain envAt lockAt storeAt self domain options fuel).map
      Prod.fst).getD false = false
    ∧ ((incrementalUpdateIPMappingChain envAt lockAt storeAt self domain options fuel).map
      Prod.fst).getD false = false
    ∧ (blockDomainChain envAt (fun _ => false) storeAt self domain options
        (fuel + 1)).isSome = true
    ∧ (unblockDomainChain envAt (fun _ => false) storeAt self domain options
        (fuel + 1)).isSome = true
    ∧ (incrementalUpdateIPMappingChain envAt (fun _ => false) storeAt self domain options
        (fuel + 1)).isSome = true := by
  refine ⟨blockDomainChain_lock envAt lockAt storeAt self domain options fuel,
    unblockDomainChain_lock envAt lockAt storeAt self domain options fuel,
    incrementalUpdateIPMappingChain_lock envAt lockAt storeAt self domain options fuel,
    ?_, ?_, ?_⟩
  · simp [blockDomainChain]
  · simp [unblockDomainChain]
  · simp [incrementalUpdateIPMappingChain]

/-- Claim C10: `syncDomainIPMapping` issues exactly one store set-add, on
the derived mapping key, with the merged candidate list, unconditionally —
the trace of a successful run is exactly two reverse-DNS cache writes
followed by the single `sadd`, with no emptiness check on the list (the
witness exercises the empty-list case). -/
theorem claim_C10 (env : Env) (self : DomainBlock) (domain : String)
    (options : Option Options) (store : Store)
    (h4 : env.rdnsAdd4Ok = true) (h6 : env.rdnsAdd6Ok = true) (hs : env.saddOk = true) :
    syncDomainIPMapping env self domain options store =
      Except.ok (store.sadd (getDomainIPMappingKey self domain options)
          (mergedCandidateList env options),
        [Event.addReverseDns domain (caughtList env.resolve4),
         Event.addReverseDns domain (caughtList env.resolve6),
         Event.sadd (getDomainIPMappingKey self domain options)
           (mergedCandidateList env options)]) :=
  syncDomainIPMapping_eq env self domain options store h4 h6 hs

/-- Witness for C10: everything resolves empty, and the `sadd` is still
issued, with an empty member list. -/
theorem claim_C10_witness :
    envAllOk.rdnsAdd4Ok = true ∧ envAllOk.rdnsAdd6Ok = true ∧ envAllOk.saddOk = true
    ∧ mergedCandidateList envAllOk none = []
    ∧ syncDomainIPMapping envAllOk ⟨none⟩ "example.com" none storeEmpty
      = Except.ok (⟨[("ipmapping:domain:example.com", [])]⟩,
          [Event.addReverseDns "example.com" [], Event.addReverseDns "example.com" [],
           Event.sadd "ipmapping:domain:example.com" []]) := by
  refine ⟨rfl, rfl, rfl, rfl, ?_⟩
  rw [claim_C10 envAllOk ⟨none⟩ "example.com" none storeEmpty rfl rfl rfl]
  decide

end DomainBlockSpec
